import Mathlib

/-
Verification development for the sync-orchestration core of the repository:
- base_python/sdk/abstract_source.py  (AbstractSource: check, discover, read, _read_stream)
- airbyte_cdk/logger.py               (AirbyteLogFormatter, AirbyteNativeLogger, AirbyteLogger)

The Python code is shallowly embedded: generators become explicit lists of
emitted messages, the mutable aggregate state dict becomes an association
list threaded through the recursion, and raised exceptions become an
Option String fault carried in the result.
-/

namespace Airbyte

/-- An opaque extracted record payload (`record` items yielded by `read_stream`). -/
abbrev Record := Nat

/-- A per-stream cursor-state value: a Python dict, modelled as an association list.
Python truthiness of the dict is emptiness of the list. -/
abbrev StreamState := List (String × String)

/-- The aggregate sync state: a Python dict mapping stream name to cursor state. -/
abbrev AggState := List (String × StreamState)

/-- An opaque connector configuration. -/
abbrev Config := String

/-- Python dict read access `d.get(k)` / `d[k]`: first matching key. -/
def lookupKey {α : Type} (l : List (String × α)) (k : String) : Option α :=
  match l with
  | [] => none
  | p :: rest => if p.1 = k then some p.2 else lookupKey rest k

/-- Python dict write `d[k] = v`: overwrite the existing entry in place, else append. -/
def setKey {α : Type} (l : List (String × α)) (k : String) (v : α) : List (String × α) :=
  match l with
  | [] => [(k, v)]
  | p :: rest => if p.1 = k then (k, v) :: rest else p :: setKey rest k v

/-- Sync modes of the protocol (`SyncMode.full_refresh`, `SyncMode.incremental`). -/
inductive SyncMode where
  | full_refresh
  | incremental
deriving DecidableEq

/-- A stream's declared cursor field: either a single field name (a Python `str`)
or an ordered path (a Python list). -/
inductive CursorField where
  | single (name : String)
  | path (names : List String)
deriving DecidableEq

/-- `[stream.cursor_field] if isinstance(stream.cursor_field, str) else stream.cursor_field`
from `discover`. -/
def CursorField.normalize : CursorField → List String
  | CursorField.single n => [n]
  | CursorField.path ns => ns

/-- The record-producing generator of `read_stream(stream_state=...)`: it yields
`records` in order and then, if `fault` is set, raises. -/
structure PullResult where
  records : List Record
  fault : Option String
deriving DecidableEq

/-- A resolved stream implementation (the Stream / IncrementalStream capability the
orchestrator drives).  `isIncremental` models `isinstance(stream, IncrementalStream)`;
the incremental-only attributes are only consulted when it is true. -/
structure StreamImpl where
  jsonSchema : String
  pullRecords : StreamState → PullResult
  isIncremental : Bool
  sourceDefinedCursor : Bool
  cursorField : CursorField
  getUpdatedState : StreamState → Record → Except String StreamState
  continuouslySaveState : Bool

/-- A Python object appearing as the error half of `check_connection`; `str_repr`
is what `str(error)` renders. -/
structure PyObj where
  str_repr : String
deriving DecidableEq

/-- `str(error)` on the error detail object. -/
def pyStr (o : PyObj) : String := o.str_repr

/-- An `AbstractSource` subclass instance: its name, the connector-supplied
`check_connection`, and the `streams(config)` mapping (a dict, as an association list). -/
structure SourceModel where
  name : String
  check_connection : Config → Bool × PyObj
  streams : Config → List (String × StreamImpl)

/-- The `stream` field of a ConfiguredAirbyteStream. -/
structure StreamRef where
  name : String
deriving DecidableEq

/-- A ConfiguredAirbyteStream: stream reference plus requested sync mode. -/
structure ConfiguredStream where
  stream : StreamRef
  sync_mode : SyncMode
deriving DecidableEq

/-- Connection statuses of the protocol. -/
inductive Status where
  | succeeded
  | failed
deriving DecidableEq

/-- AirbyteConnectionStatus; `message` is unset for the SUCCEEDED result. -/
structure ConnectionStatus where
  status : Status
  message : Option String
deriving DecidableEq

/-- An AirbyteStream descriptor as built by `discover`; the two optional fields
stay unset for non-incremental streams. -/
structure AirbyteStream where
  name : String
  json_schema : String
  supported_sync_modes : List SyncMode
  source_defined_cursor : Option Bool
  default_cursor_field : Option (List String)
deriving DecidableEq

/-- The messages that reach the shared ordered output channel during `read`
(records and state from the generator, log lines printed by the logger). -/
inductive Msg where
  | record (stream : String) (data : Record) (emitted_at : Nat)
  | state (data : AggState)
  | log (level : String) (message : String)
deriving DecidableEq

/-- `AbstractSource.check`: delegate to `check_connection`; a negative result maps to
FAILED carrying `str(error)`, a positive one to SUCCEEDED with no message. -/
def check (src : SourceModel) (config : Config) : ConnectionStatus :=
  let r := src.check_connection config
  if !r.1 then { status := Status.failed, message := some (pyStr r.2) }
  else { status := Status.succeeded, message := none }

/-- `AbstractSource.discover`: one AirbyteStream per entry of `streams(config)`;
incremental-capable streams additionally advertise the incremental sync mode,
`source_defined_cursor` and the normalized `default_cursor_field`. -/
def discover (src : SourceModel) (config : Config) : List AirbyteStream :=
  (src.streams config).map (fun p =>
    { name := p.1
      json_schema := p.2.jsonSchema
      supported_sync_modes :=
        [SyncMode.full_refresh] ++ (if p.2.isIncremental then [SyncMode.incremental] else [])
      source_defined_cursor := if p.2.isIncremental then some p.2.sourceDefinedCursor else none
      default_cursor_field := if p.2.isIncremental then some p.2.cursorField.normalize else none })

/-! ## Logger (airbyte_cdk/logger.py) -/

/-- `TRACE_LEVEL_NUM = 5`. -/
def TRACE_LEVEL_NUM : Nat := 5

/-- `AirbyteLogFormatter.level_mapping` plus the `.get(levelno, "INFO")` default:
Python numeric levels to protocol level names. -/
def level_mapping (levelno : Nat) : String :=
  if levelno = 50 then "FATAL"
  else if levelno = 40 then "ERROR"
  else if levelno = 30 then "WARN"
  else if levelno = 20 then "INFO"
  else if levelno = 10 then "DEBUG"
  else if levelno = TRACE_LEVEL_NUM then "TRACE"
  else "INFO"

/-- Try to remove `pat` from the front of a character list. -/
def stripPat : List Char → List Char → Option (List Char)
  | [], s => some s
  | _ :: _, [] => none
  | p :: ps, c :: cs => if c = p then stripPat ps cs else none

/-- One left-to-right pass replacing non-overlapping occurrences of `pat` by `rep`;
`fuel` only bounds the recursion and is set to the input length (enough for a
non-empty pattern, which consumes at least one character per match). -/
def replaceStep (pat rep : List Char) : Nat → List Char → List Char
  | _, [] => []
  | 0, s => s
  | fuel + 1, c :: cs =>
    match stripPat pat (c :: cs) with
    | some rest => rep ++ replaceStep pat rep fuel rest
    | none => c :: replaceStep pat rep fuel cs

/-- Python `s.replace(pat, rep)`: replace every leftmost non-overlapping literal
occurrence of `pat` in `s` by `rep`; the empty pattern inserts `rep` at every
character boundary. -/
def pyReplace (s pat rep : String) : String :=
  match pat.data with
  | [] => ⟨rep.data ++ (s.data.map (fun c => c :: rep.data)).flatten⟩
  | _ :: _ => ⟨replaceStep pat.data rep.data s.data.length s.data⟩

/-- Whether `pat` occurs as a contiguous substring of a character list. -/
def containsSub (pat : List Char) : List Char → Bool
  | [] => decide (pat = [])
  | c :: cs => (stripPat pat (c :: cs)).isSome || containsSub pat cs

/-- The secret-masking loop of `AirbyteLogFormatter.format`:
`for secret in _secrets: message = message.replace(secret, "****")`,
replacing every literal occurrence of each secret in turn. -/
def maskSecrets (secrets : List String) (message : String) : String :=
  secrets.foldl (fun m s => pyReplace m s "****") message

/-- `AirbyteLogFormatter.format`: render the record message, map the level,
replace every active secret, wrap as a LOG AirbyteMessage. -/
def AirbyteLogFormatter.format (secrets : List String) (levelno : Nat) (message : String) :
    Msg :=
  Msg.log (level_mapping levelno) (maskSecrets secrets message)

/-- `self.valid_log_types` of both logger classes. -/
def valid_log_types : List String := ["FATAL", "ERROR", "WARN", "INFO", "DEBUG", "TRACE"]

/-- Accumulating scanner behind `pySplit`: `acc` holds the reversed characters of
the word currently being read. -/
def wordsAux : List Char → List Char → List String
  | [], acc => if acc = [] then [] else [⟨acc.reverse⟩]
  | c :: cs, acc =>
    if c.isWhitespace then
      (if acc = [] then [] else [⟨acc.reverse⟩]) ++ wordsAux cs []
    else wordsAux cs (c :: acc)

/-- Python `msg.split()` with no arguments: split on whitespace runs, dropping
empty pieces and leading/trailing whitespace. -/
def pySplit (s : String) : List String := wordsAux s.data []

/-- `AirbyteLogger.log_by_prefix` (logger.py:121): take the level from the first
word of the message when it is a known level name, else use the default level;
returns the LOG message that `self.log` prints. -/
def AirbyteLogger.logByFirstWord (message : String) (default_level : String) : Msg :=
  let split_line := pySplit message
  match split_line.head? with
  | some first_word =>
    if first_word ∈ valid_log_types then
      Msg.log first_word (" ".intercalate split_line.tail)
    else
      Msg.log default_level message
  | none => Msg.log default_level message

/-- `logging.getLevelName` restricted to the names this code passes it
(the registered level names; unregistered names never reach it here). -/
def getLevelNumber (s : String) : Nat :=
  if s = "FATAL" then 50
  else if s = "ERROR" then 40
  else if s = "WARN" then 30
  else if s = "INFO" then 20
  else if s = "DEBUG" then 10
  else if s = "TRACE" then TRACE_LEVEL_NUM
  else 0

/-- `AirbyteNativeLogger.log_by_prefix` (logger.py:100): same dispatch, but an
unknown default level falls back to INFO and the level is resolved to its
numeric value; returns the (levelno, text) pair passed to `self.log`. -/
def AirbyteNativeLogger.logByFirstWord (msg : String) (default_level : String) :
    Nat × String :=
  let split_line := pySplit msg
  match split_line.head? with
  | some first_word =>
    if first_word ∈ valid_log_types then
      (getLevelNumber first_word, " ".intercalate split_line.tail)
    else
      let dl := if default_level ∈ valid_log_types then default_level else "INFO"
      (getLevelNumber dl, msg)
  | none =>
    let dl := if default_level ∈ valid_log_types then default_level else "INFO"
    (getLevelNumber dl, msg)

/-- `traceback.format_exc()` for a raised fault, abstracted to a rendering that
carries the fault text (the trace detail). -/
def formatExc (e : String) : String := "Traceback (most recent call last): " ++ e

/-! ## The read loop (abstract_source.py) -/

/-- `int(datetime.now().timestamp()) * 1000` where the clock reading is given in
microseconds since epoch: truncate to whole seconds, then express in milliseconds. -/
def emittedAtOf (micros : Nat) : Nat := micros / 1000000 * 1000

/-- Result of driving the `for record in stream_instance.read_stream(...)` loop:
messages yielded, the final per-stream cursor state, the aggregate state dict
(mutated in place by checkpoints), the clock tick position, and a fault if
`get_updated_state` raised. -/
structure LoopResult where
  msgs : List Msg
  stream_state : StreamState
  agg : AggState
  tick : Nat
  fault : Option String

/-- The record loop of `_read_stream` (abstract_source.py:132-143): per record,
yield a RECORD message, bump the counter, and when incremental fold the cursor
state and checkpoint the aggregate every 100th record if the stream asks for it. -/
def readLoop (inst : StreamImpl) (stream_name : String) (use_incremental : Bool)
    (clock : Nat → Nat) :
    List Record → Nat → StreamState → AggState → Nat → LoopResult
  | [], _, st, agg, tick => ⟨[], st, agg, tick, none⟩
  | r :: rs, counter, st, agg, tick =>
    let now := emittedAtOf (clock tick)
    let recMsg := Msg.record stream_name r now
    let counter1 := counter + 1
    if use_incremental then
      match inst.getUpdatedState st r with
      | Except.error e => ⟨[recMsg], st, agg, tick + 1, some e⟩
      | Except.ok st1 =>
        if inst.continuouslySaveState && counter1 % 100 == 0 then
          let agg1 := setKey agg stream_name st1
          let res := readLoop inst stream_name use_incremental clock rs counter1 st1 agg1 (tick + 1)
          ⟨recMsg :: Msg.state agg1 :: res.msgs, res.stream_state, res.agg, res.tick, res.fault⟩
        else
          let res := readLoop inst stream_name use_incremental clock rs counter1 st1 agg (tick + 1)
          ⟨recMsg :: res.msgs, res.stream_state, res.agg, res.tick, res.fault⟩
    else
      let res := readLoop inst stream_name use_incremental clock rs counter1 st agg (tick + 1)
      ⟨recMsg :: res.msgs, res.stream_state, res.agg, res.tick, res.fault⟩

/-- The seeding of `stream_state` in `_read_stream` (abstract_source.py:126-129):
start from the aggregate entry when incremental and that entry is non-empty
(Python dict truthiness), else from the empty dict. -/
def seededState (use_incremental : Bool) (agg : AggState) (stream_name : String) :
    StreamState :=
  if use_incremental then
    match lookupKey agg stream_name with
    | some s => if s.isEmpty then [] else s
    | none => []
  else []

/-- A rendering of a cursor-state dict for the "Set state of ..." log line. -/
def showStreamState (s : StreamState) : String :=
  String.intercalate ", " (s.map (fun p => p.1 ++ "=" ++ p.2))

/-- The log lines printed before the loop of `_read_stream`: the conditional
"Set state of <name> stream to <state>" line and the "Syncing <name> stream" line. -/
def preLoopLogs (use_incremental : Bool) (agg : AggState) (stream_name : String) :
    List Msg :=
  (if use_incremental then
    match lookupKey agg stream_name with
    | some s =>
      if s.isEmpty then []
      else [Msg.log "INFO" ("Set state of " ++ stream_name ++ " stream to " ++ showStreamState s)]
    | none => []
  else [])
  ++ [Msg.log "INFO" ("Syncing " ++ stream_name ++ " stream")]

/-- What `self.streams(config)[stream_name]` raises when the key is missing. -/
def keyErrorMsg (stream_name : String) : String := "KeyError: " ++ stream_name

/-- Result of one `_read_stream` generator run: messages yielded (log lines
included, since the logger shares the output channel), the aggregate state dict
as left by the run, the clock position, and the raised fault if any. -/
structure StreamRunResult where
  msgs : List Msg
  agg : AggState
  tick : Nat
  fault : Option String

/-- `AbstractSource._read_stream` (abstract_source.py:119-148): resolve the
stream (KeyError when absent), compute `use_incremental`, seed the cursor state,
drive the record loop, and after normal exhaustion merge a non-empty final
cursor state into the aggregate and emit the terminal STATE message. -/
def readStreamCore (src : SourceModel) (config : Config) (cs : ConfiguredStream)
    (agg : AggState) (clock : Nat → Nat) (tick : Nat) : StreamRunResult :=
  let stream_name := cs.stream.name
  match lookupKey (src.streams config) stream_name with
  | none => ⟨[], agg, tick, some (keyErrorMsg stream_name)⟩
  | some inst =>
    let ui : Bool := decide (cs.sync_mode = SyncMode.incremental) && inst.isIncremental
    let seeded := seededState ui agg stream_name
    let logs := preLoopLogs ui agg stream_name
    let pull := inst.pullRecords seeded
    let res := readLoop inst stream_name ui clock pull.records 0 seeded agg tick
    match res.fault with
    | some e => ⟨logs ++ res.msgs, res.agg, res.tick, some e⟩
    | none =>
      match pull.fault with
      | some e => ⟨logs ++ res.msgs, res.agg, res.tick, some e⟩
      | none =>
        if ui && !res.stream_state.isEmpty then
          let agg1 := setKey res.agg stream_name res.stream_state
          ⟨logs ++ res.msgs ++ [Msg.state agg1], agg1, res.tick, none⟩
        else
          ⟨logs ++ res.msgs, res.agg, res.tick, none⟩

/-- The ERROR log printed by `read`'s exception handler:
`logger.exception(f"Encountered an exception while reading stream {self.name}")`,
which appends the traceback to the message. -/
def excLogMsg (src_name : String) (e : String) : Msg :=
  Msg.log "ERROR"
    ("Encountered an exception while reading stream " ++ src_name ++ "\n" ++ formatExc e)

/-- Result of the per-stream loop of `read`. -/
structure RunResult where
  msgs : List Msg
  agg : AggState
  tick : Nat
  fault : Option String

/-- The `for configured_stream in catalog.streams` loop of `read`
(abstract_source.py:110-115): run each stream in order; on a fault, print the
exception log and re-raise, aborting the remaining streams. -/
def readStreams (src : SourceModel) (config : Config) (clock : Nat → Nat) :
    List ConfiguredStream → AggState → Nat → RunResult
  | [], agg, tick => ⟨[], agg, tick, none⟩
  | cs :: rest, agg, tick =>
    let res := readStreamCore src config cs agg clock tick
    match res.fault with
    | some e => ⟨res.msgs ++ [excLogMsg src.name e], res.agg, res.tick, some e⟩
    | none =>
      let res2 := readStreams src config clock rest res.agg res.tick
      ⟨res.msgs ++ res2.msgs, res2.agg, res2.tick, res2.fault⟩

/-- `AbstractSource.read` (abstract_source.py:102-117): deep-copy the caller
state into `total_state` (a value copy here), print the start log, run the
streams, and print the finish log when no fault aborted the run.  The result is
the ordered output channel content plus the re-raised fault, if any. -/
def read (src : SourceModel) (config : Config) (catalog : List ConfiguredStream)
    (state : AggState) (clock : Nat → Nat) : List Msg × Option String :=
  let total_state := state
  let startLog := Msg.log "INFO" ("Starting syncing " ++ src.name)
  let res := readStreams src config clock catalog total_state 0
  match res.fault with
  | some e => (startLog :: res.msgs, some e)
  | none => (startLog :: res.msgs ++ [Msg.log "INFO" ("Finished syncing " ++ src.name)], none)

/-! ## Observation functions and predicates used by the statements -/

/-- The payloads of the STATE messages of an output, in emission order. -/
def stateDatas (msgs : List Msg) : List AggState :=
  msgs.filterMap (fun m => match m with | Msg.state d => some d | _ => none)

/-- The payloads of the RECORD messages of an output, in emission order. -/
def recordDatas (msgs : List Msg) : List Record :=
  msgs.filterMap (fun m => match m with | Msg.record _ d _ => some d | _ => none)

/-- Aggregate-state inclusion: every stream that has an entry in `a` also has an
entry in `b` (the entry itself may have been updated since). -/
def keySub (a b : AggState) : Prop :=
  ∀ k, (lookupKey a k).isSome = true → (lookupKey b k).isSome = true

/-- The fold of `get_updated_state` never raises for this stream. -/
def FoldTotal (inst : StreamImpl) : Prop :=
  ∀ st r, ∃ st1, inst.getUpdatedState st r = Except.ok st1

/-- The RECORD messages a full-extraction pass over `rs` yields, starting at
clock tick `tick`. -/
def recordMsgs (stream_name : String) (clock : Nat → Nat) :
    List Record → Nat → List Msg
  | [], _ => []
  | r :: rs, tick =>
    Msg.record stream_name r (emittedAtOf (clock tick)) :: recordMsgs stream_name clock rs (tick + 1)

/-- The Stream Descriptor exactly as the spec describes it: schema from the
stream, supported sync modes full_refresh plus incremental iff the stream
advertises incremental capability, and only for incremental-capable streams the
source-defined-cursor flag and the normalized default cursor field path. -/
def specStreamDescriptor (p : String × StreamImpl) : AirbyteStream :=
  { name := p.1
    json_schema := p.2.jsonSchema
    supported_sync_modes :=
      if p.2.isIncremental then [SyncMode.full_refresh, SyncMode.incremental]
      else [SyncMode.full_refresh]
    source_defined_cursor := if p.2.isIncremental then some p.2.sourceDefinedCursor else none
    default_cursor_field := if p.2.isIncremental then some p.2.cursorField.normalize else none }

/-! ## Concrete fixtures used by the witnesses -/

/-- An incremental-capable stream over five records whose cursor follows the
last record seen. -/
def exIncStream : StreamImpl :=
  { jsonSchema := "schema1"
    pullRecords := fun _ => ⟨[1, 2, 3, 4, 5], none⟩
    isIncremental := true
    sourceDefinedCursor := true
    cursorField := CursorField.single "updated_at"
    getUpdatedState := fun _ r => Except.ok [("cursor", toString r)]
    continuouslySaveState := true }

/-- A plain (non incremental-capable) stream over three records. -/
def exPlainStream : StreamImpl :=
  { jsonSchema := "schema2"
    pullRecords := fun _ => ⟨[7, 8, 9], none⟩
    isIncremental := false
    sourceDefinedCursor := false
    cursorField := CursorField.path ["a", "b"]
    getUpdatedState := fun st _ => Except.ok st
    continuouslySaveState := false }

/-- A stream whose generator raises after yielding two records. -/
def exFaultStream : StreamImpl :=
  { exIncStream with pullRecords := fun _ => ⟨[7, 8], some "boom"⟩ }

/-- A source with two incremental streams, a plain stream and a faulting stream. -/
def exSource : SourceModel :=
  { name := "ExampleSource"
    check_connection := fun _ => (true, ⟨"ok"⟩)
    streams := fun _ =>
      [("s1", exIncStream), ("s2", exIncStream), ("plain", exPlainStream),
       ("faulty", exFaultStream)] }

/-- A source whose connectivity probe fails. -/
def exBadSource : SourceModel :=
  { name := "BadSource"
    check_connection := fun _ => (false, ⟨"bad password"⟩)
    streams := fun _ => [] }

/-- A clock handing out one-and-a-half-second steps, in microseconds. -/
def exClock : Nat → Nat := fun tick => tick * 1500000

/-- A two-stream incremental catalog over `exSource`. -/
def exCatalog : List ConfiguredStream :=
  [⟨⟨"s1"⟩, SyncMode.incremental⟩, ⟨⟨"s2"⟩, SyncMode.incremental⟩]

/-! ## Theorems -/

/-! ### Dictionary and chain helper lemmas -/

theorem lookupKey_setKey {α : Type} (l : List (String × α)) (k k0 : String) (v : α) :
    lookupKey (setKey l k v) k0 = if k0 = k then some v else lookupKey l k0 := by
  induction l with
  | nil =>
    simp only [setKey, lookupKey]
    by_cases h : k0 = k
    · rw [if_pos h.symm, if_pos h]
    · rw [if_neg (fun h1 => h h1.symm), if_neg h]
  | cons p rest ih =>
    simp only [setKey]
    by_cases hpk : p.1 = k
    · rw [if_pos hpk]
      simp only [lookupKey]
      by_cases h : k0 = k
      · rw [if_pos h.symm, if_pos h]
      · rw [if_neg (fun h1 => h h1.symm), if_neg h,
          if_neg (fun h1 => h ((hpk.symm.trans h1).symm))]
    · rw [if_neg hpk]
      simp only [lookupKey]
      by_cases hp0 : p.1 = k0
      · have h0 : ¬ k0 = k := fun hh => hpk (hp0.trans hh)
        rw [if_pos hp0, if_neg h0, if_pos hp0]
      · rw [if_neg hp0, ih]
        by_cases h : k0 = k
        · rw [if_pos h, if_pos h]
        · rw [if_neg h, if_neg h, if_neg hp0]

theorem keySub_refl (a : AggState) : keySub a a := fun _ h => h

theorem keySub_trans : Transitive keySub := fun _ _ _ hab hbc k h => hbc k (hab k h)

theorem keySub_setKey (a : AggState) (k : String) (v : StreamState) :
    keySub a (setKey a k v) := by
  intro k0 h
  rw [lookupKey_setKey]
  split
  · rfl
  · exact h

theorem chain_rel_get {α : Type} {R : α → α → Prop} (hT : Transitive R) :
    ∀ (l : List α) (a : α), List.Chain R a l → ∀ i x, l.get? i = some x → R a x := by
  intro l
  induction l with
  | nil => intro a _ i x hx; simp at hx
  | cons b t ih =>
    intro a hc i x hx
    cases hc with
    | cons hab hbt =>
      cases i with
      | zero =>
        simp only [List.get?] at hx
        cases hx
        exact hab
      | succ i => exact hT hab (ih b hbt i x hx)

theorem chain_pairwise_get {α : Type} {R : α → α → Prop} (hT : Transitive R) :
    ∀ (l : List α) (a : α), List.Chain R a l →
      ∀ i j x y, i < j → l.get? i = some x → l.get? j = some y → R x y := by
  intro l
  induction l with
  | nil => intro a _ i j x y _ hx _; simp at hx
  | cons b t ih =>
    intro a hc i j x y hij hx hy
    cases hc with
    | cons hab hbt =>
      cases i with
      | zero =>
        simp only [List.get?] at hx
        cases hx
        cases j with
        | zero => omega
        | succ j => exact chain_rel_get hT t b hbt j y hy
      | succ i =>
        cases j with
        | zero => omega
        | succ j => exact ih b hbt i j x y (by omega) hx hy

theorem chain_append_trans {α : Type} {R : α → α → Prop} (hT : Transitive R) :
    ∀ (l₁ : List α) (a b c : α) (l₂ : List α),
      List.Chain R a (l₁ ++ [b]) → List.Chain R b (l₂ ++ [c]) →
      List.Chain R a (l₁ ++ l₂ ++ [c]) := by
  intro l₁
  induction l₁ with
  | nil =>
    intro a b c l₂ h₁ h₂
    cases h₁ with
    | cons hab _ =>
      cases l₂ with
      | nil =>
        cases h₂ with
        | cons hbc _ => exact List.Chain.cons (hT hab hbc) List.Chain.nil
      | cons d l₂ =>
        cases h₂ with
        | cons hbd hrest => exact List.Chain.cons (hT hab hbd) hrest
  | cons x l₁ ih =>
    intro a b c l₂ h₁ h₂
    cases h₁ with
    | cons hax hrest => exact List.Chain.cons hax (ih x b c l₂ hrest h₂)

theorem get?_some_lt {α : Type} : ∀ (l : List α) (i : Nat) (x : α),
    l.get? i = some x → i < l.length := by
  intro l
  induction l with
  | nil => intro i x h; simp at h
  | cons b t ih =>
    intro i x h
    cases i with
    | zero => simp
    | succ i => exact Nat.succ_lt_succ (ih i x h)

theorem getLast?_append_some {α : Type} (l₁ : List α) :
    ∀ (l₂ : List α) (x : α), l₂.getLast? = some x → (l₁ ++ l₂).getLast? = some x := by
  induction l₁ with
  | nil => intro l₂ x h; exact h
  | cons a l₁ ih =>
    intro l₂ x h
    have h2 := ih l₂ x h
    cases hl : l₁ ++ l₂ with
    | nil => rw [hl] at h2; simp at h2
    | cons b t =>
      show (a :: (l₁ ++ l₂)).getLast? = some x
      rw [hl] at h2 ⊢
      rw [List.getLast?_cons_cons]
      exact h2

/-! ### stateDatas computation lemmas -/

theorem stateDatas_nil : stateDatas [] = [] := rfl

theorem stateDatas_cons_record (s : String) (d : Record) (t : Nat) (ms : List Msg) :
    stateDatas (Msg.record s d t :: ms) = stateDatas ms := rfl

theorem stateDatas_cons_state (d : AggState) (ms : List Msg) :
    stateDatas (Msg.state d :: ms) = d :: stateDatas ms := rfl

theorem stateDatas_cons_log (lv m : String) (ms : List Msg) :
    stateDatas (Msg.log lv m :: ms) = stateDatas ms := rfl

theorem stateDatas_append (a b : List Msg) :
    stateDatas (a ++ b) = stateDatas a ++ stateDatas b := by
  simp [stateDatas, List.filterMap_append]

theorem stateDatas_preLoopLogs (ui : Bool) (agg : AggState) (n : String) :
    stateDatas (preLoopLogs ui agg n) = [] := by
  unfold preLoopLogs
  rw [stateDatas_append, stateDatas_cons_log, stateDatas_nil, List.append_nil]
  by_cases hui : ui = true
  · rw [if_pos hui]
    split
    · split <;> rfl
    · rfl
  · rw [if_neg hui]; rfl

/-! ### The aggregate-state chain through the read pipeline -/

theorem readLoop_chain (inst : StreamImpl) (n : String) (ui : Bool) (clock : Nat → Nat) :
    ∀ (rs : List Record) (c : Nat) (st : StreamState) (agg : AggState) (tick : Nat),
      List.Chain keySub agg
        (stateDatas (readLoop inst n ui clock rs c st agg tick).msgs
          ++ [(readLoop inst n ui clock rs c st agg tick).agg]) := by
  intro rs
  induction rs with
  | nil =>
    intro c st agg tick
    exact List.Chain.cons (keySub_refl agg) List.Chain.nil
  | cons r rs ih =>
    intro c st agg tick
    simp only [readLoop]
    by_cases hui : ui = true
    · rw [if_pos hui]
      cases hfold : inst.getUpdatedState st r with
      | error e =>
        exact List.Chain.cons (keySub_refl agg) List.Chain.nil
      | ok st1 =>
        dsimp only
        by_cases hcp : (inst.continuouslySaveState && (c + 1) % 100 == 0) = true
        · rw [if_pos hcp]
          simp only [stateDatas_cons_record, stateDatas_cons_state]
          exact List.Chain.cons (keySub_setKey agg n st1)
            (ih (c + 1) st1 (setKey agg n st1) (tick + 1))
        · rw [if_neg hcp]
          simp only [stateDatas_cons_record]
          exact ih (c + 1) st1 agg (tick + 1)
    · rw [if_neg hui]
      simp only [stateDatas_cons_record]
      exact ih (c + 1) st agg (tick + 1)

theorem readStreamCore_chain (src : SourceModel) (config : Config) (cs : ConfiguredStream)
    (agg : AggState) (clock : Nat → Nat) (tick : Nat) :
    List.Chain keySub agg
      (stateDatas (readStreamCore src config cs agg clock tick).msgs
        ++ [(readStreamCore src config cs agg clock tick).agg]) := by
  unfold readStreamCore
  dsimp only
  cases hl : lookupKey (src.streams config) cs.stream.name with
  | none => exact List.Chain.cons (keySub_refl agg) List.Chain.nil
  | some inst =>
    dsimp only
    set ui := decide (cs.sync_mode = SyncMode.incremental) && inst.isIncremental with hui
    set seeded := seededState ui agg cs.stream.name with hseed
    set pull := inst.pullRecords seeded with hpull
    have hchain := readLoop_chain inst cs.stream.name ui clock pull.records 0 seeded agg tick
    set res := readLoop inst cs.stream.name ui clock pull.records 0 seeded agg tick with hres
    cases hf : res.fault with
    | some e =>
      simp only [stateDatas_append, stateDatas_preLoopLogs, List.nil_append]
      exact hchain
    | none =>
      cases hpf : pull.fault with
      | some e =>
        simp only [stateDatas_append, stateDatas_preLoopLogs, List.nil_append]
        exact hchain
      | none =>
        by_cases hterm : (ui && !res.stream_state.isEmpty) = true
        · rw [if_pos hterm]
          simp only [stateDatas_append, stateDatas_preLoopLogs, List.nil_append,
            stateDatas_cons_state, stateDatas_nil, List.append_nil]
          have h2 : List.Chain keySub res.agg
              ([setKey res.agg cs.stream.name res.stream_state]
                ++ [setKey res.agg cs.stream.name res.stream_state]) :=
            List.Chain.cons (keySub_setKey res.agg cs.stream.name res.stream_state)
              (List.Chain.cons (keySub_refl _) List.Chain.nil)
          exact chain_append_trans keySub_trans (stateDatas res.msgs) agg res.agg _ _ hchain h2
        · rw [if_neg hterm]
          simp only [stateDatas_append, stateDatas_preLoopLogs, List.nil_append]
          exact hchain

theorem stateDatas_excLog (n e : String) : stateDatas [excLogMsg n e] = [] := rfl

theorem readStreams_chain (src : SourceModel) (config : Config) (clock : Nat → Nat) :
    ∀ (catalog : List ConfiguredStream) (agg : AggState) (tick : Nat),
      List.Chain keySub agg
        (stateDatas (readStreams src config clock catalog agg tick).msgs
          ++ [(readStreams src config clock catalog agg tick).agg]) := by
  intro catalog
  induction catalog with
  | nil =>
    intro agg tick
    exact List.Chain.cons (keySub_refl agg) List.Chain.nil
  | cons cs rest ih =>
    intro agg tick
    simp only [readStreams]
    have h1 := readStreamCore_chain src config cs agg clock tick
    set res := readStreamCore src config cs agg clock tick with hres
    cases hf : res.fault with
    | some e =>
      simp only [stateDatas_append, stateDatas_excLog, List.append_nil]
      exact h1
    | none =>
      have h2 := ih res.agg res.tick
      simp only [stateDatas_append]
      exact chain_append_trans keySub_trans (stateDatas res.msgs) agg res.agg _ _ h1 h2

theorem stateDatas_read (src : SourceModel) (config : Config)
    (catalog : List ConfiguredStream) (state : AggState) (clock : Nat → Nat) :
    stateDatas (read src config catalog state clock).1 =
      stateDatas (readStreams src config clock catalog state 0).msgs := by
  unfold read
  simp only []
  cases hf : (readStreams src config clock catalog state 0).fault with
  | some e => simp only [stateDatas_cons_log]
  | none =>
    simp only [stateDatas_cons_log, stateDatas_append, stateDatas_cons_log, stateDatas_nil,
      List.append_nil]

/-- C1: every STATE message `read` yields carries the whole aggregate state
built so far: each snapshot contains an entry for every stream the run-input
state held, and between any two snapshots in emission order every stream
present in the earlier one is still present in the later one (the aggregate is
monotonically non-shrinking across emissions). -/
theorem C1_state_snapshots_monotone (src : SourceModel) (config : Config)
    (catalog : List ConfiguredStream) (state : AggState) (clock : Nat → Nat) :
    (∀ i d, (stateDatas (read src config catalog state clock).1).get? i = some d →
        keySub state d) ∧
    (∀ i j d₁ d₂, i < j →
        (stateDatas (read src config catalog state clock).1).get? i = some d₁ →
        (stateDatas (read src config catalog state clock).1).get? j = some d₂ →
        keySub d₁ d₂) := by
  rw [stateDatas_read]
  have hchain := readStreams_chain src config clock catalog state 0
  set sd := stateDatas (readStreams src config clock catalog state 0).msgs with hsd
  set fin := (readStreams src config clock catalog state 0).agg with hfin
  constructor
  · intro i d hget
    have hi : i < sd.length := get?_some_lt sd i d hget
    have hget2 : (sd ++ [fin]).get? i = some d := by
      rw [List.get?_append hi]; exact hget
    exact chain_rel_get keySub_trans (sd ++ [fin]) state hchain i d hget2
  · intro i j d₁ d₂ hij hgi hgj
    have hi : i < sd.length := get?_some_lt sd i d₁ hgi
    have hj : j < sd.length := get?_some_lt sd j d₂ hgj
    have hgi2 : (sd ++ [fin]).get? i = some d₁ := by
      rw [List.get?_append hi]; exact hgi
    have hgj2 : (sd ++ [fin]).get? j = some d₂ := by
      rw [List.get?_append hj]; exact hgj
    exact chain_pairwise_get keySub_trans (sd ++ [fin]) state hchain i j d₁ d₂ hij hgi2 hgj2

theorem C1_state_snapshots_monotone_witness :
    keySub [("old", [("k", "v")]), ("s1", [("cursor", "5")])]
      [("old", [("k", "v")]), ("s1", [("cursor", "5")]), ("s2", [("cursor", "5")])] :=
  (C1_state_snapshots_monotone exSource "cfg" exCatalog [("old", [("k", "v")])] exClock).2
    0 1 _ _ (by decide) (by decide) (by decide)

/-! ### Record timestamp lemmas -/

theorem emittedAtOf_mod (micros : Nat) : emittedAtOf micros % 1000 = 0 := by
  unfold emittedAtOf
  exact Nat.mul_mod_left _ _

theorem readLoop_record_times (inst : StreamImpl) (n : String) (ui : Bool) (clock : Nat → Nat) :
    ∀ (rs : List Record) (c : Nat) (st : StreamState) (agg : AggState) (tick : Nat)
      (s : String) (d : Record) (t : Nat),
      Msg.record s d t ∈ (readLoop inst n ui clock rs c st agg tick).msgs → t % 1000 = 0 := by
  intro rs
  induction rs with
  | nil => intro c st agg tick s d t h; simp [readLoop] at h
  | cons r rs ih =>
    intro c st agg tick s d t h
    simp only [readLoop] at h
    split at h
    · split at h
      · simp only [List.mem_singleton] at h
        injection h with h1 h2 h3
        rw [h3]
        exact emittedAtOf_mod _
      · split at h
        · simp only [List.mem_cons] at h
          rcases h with h | h | h
          · injection h with h1 h2 h3
            rw [h3]
            exact emittedAtOf_mod _
          · exact absurd h (by simp)
          · exact ih _ _ _ _ s d t h
        · simp only [List.mem_cons] at h
          rcases h with h | h
          · injection h with h1 h2 h3
            rw [h3]
            exact emittedAtOf_mod _
          · exact ih _ _ _ _ s d t h
    · simp only [List.mem_cons] at h
      rcases h with h | h
      · injection h with h1 h2 h3
        rw [h3]
        exact emittedAtOf_mod _
      · exact ih _ _ _ _ s d t h

theorem mem_preLoopLogs_not_record (ui : Bool) (agg : AggState) (n s : String)
    (d : Record) (t : Nat) :
    Msg.record s d t ∈ preLoopLogs ui agg n → False := by
  intro h
  unfold preLoopLogs at h
  rcases List.mem_append.mp h with h | h
  · split at h
    · split at h
      · split at h <;> simp at h
      · simp at h
    · simp at h
  · simp at h

theorem readStreamCore_record_times (src : SourceModel) (config : Config)
    (cs : ConfiguredStream) (agg : AggState) (clock : Nat → Nat) (tick : Nat) :
    ∀ s d t, Msg.record s d t ∈ (readStreamCore src config cs agg clock tick).msgs →
      t % 1000 = 0 := by
  intro s d t h
  unfold readStreamCore at h
  dsimp only at h
  cases hl : lookupKey (src.streams config) cs.stream.name with
  | none =>
    rw [hl] at h
    dsimp only at h
    exact absurd h (List.not_mem_nil _)
  | some inst =>
    rw [hl] at h
    dsimp only at h
    set ui := decide (cs.sync_mode = SyncMode.incremental) && inst.isIncremental with hui
    set seeded := seededState ui agg cs.stream.name with hseed
    set res := readLoop inst cs.stream.name ui clock (inst.pullRecords seeded).records 0
      seeded agg tick with hres
    cases hf : res.fault with
    | some e =>
      rw [hf] at h
      dsimp only at h
      rcases List.mem_append.mp h with h | h
      · exact absurd h (mem_preLoopLogs_not_record _ _ _ s d t)
      · exact readLoop_record_times _ _ _ clock _ _ _ _ _ s d t (hres ▸ h)
    | none =>
      rw [hf] at h
      dsimp only at h
      cases hpf : (inst.pullRecords seeded).fault with
      | some e =>
        rw [hpf] at h
        dsimp only at h
        rcases List.mem_append.mp h with h | h
        · exact absurd h (mem_preLoopLogs_not_record _ _ _ s d t)
        · exact readLoop_record_times _ _ _ clock _ _ _ _ _ s d t (hres ▸ h)
      | none =>
        rw [hpf] at h
        dsimp only at h
        by_cases hterm : (ui && !res.stream_state.isEmpty) = true
        · rw [if_pos hterm] at h
          rcases List.mem_append.mp h with h | h
          · rcases List.mem_append.mp h with h | h
            · exact absurd h (mem_preLoopLogs_not_record _ _ _ s d t)
            · exact readLoop_record_times _ _ _ clock _ _ _ _ _ s d t (hres ▸ h)
          · rw [List.mem_singleton] at h
            exact absurd h (by simp)
        · rw [if_neg hterm] at h
          rcases List.mem_append.mp h with h | h
          · exact absurd h (mem_preLoopLogs_not_record _ _ _ s d t)
          · exact readLoop_record_times _ _ _ clock _ _ _ _ _ s d t (hres ▸ h)

theorem readStreams_record_times (src : SourceModel) (config : Config) (clock : Nat → Nat) :
    ∀ (catalog : List ConfiguredStream) (agg : AggState) (tick : Nat) (s : String)
      (d : Record) (t : Nat),
      Msg.record s d t ∈ (readStreams src config clock catalog agg tick).msgs →
      t % 1000 = 0 := by
  intro catalog
  induction catalog with
  | nil => intro agg tick s d t h; simp [readStreams] at h
  | cons cs rest ih =>
    intro agg tick s d t h
    simp only [readStreams] at h
    split at h
    · rcases List.mem_append.mp h with h | h
      · exact readStreamCore_record_times src config cs agg clock tick s d t h
      · simp [excLogMsg] at h
    · rcases List.mem_append.mp h with h | h
      · exact readStreamCore_record_times src config cs agg clock tick s d t h
      · exact ih _ _ s d t h

/-- C10: every RECORD message of a run has an `emitted_at` that is a whole
multiple of 1000: the implementation truncates the clock to whole seconds
before scaling to milliseconds, so sub-second precision is never carried. -/
theorem C10_emitted_at_truncated_to_seconds (src : SourceModel) (config : Config)
    (catalog : List ConfiguredStream) (state : AggState) (clock : Nat → Nat)
    (s : String) (d : Record) (t : Nat) :
    Msg.record s d t ∈ (read src config catalog state clock).1 → t % 1000 = 0 := by
  intro h
  unfold read at h
  dsimp only at h
  split at h
  · rcases List.mem_cons.mp h with h | h
    · simp at h
    · exact readStreams_record_times src config clock catalog state 0 s d t h
  · rcases List.mem_cons.mp h with h | h
    · simp at h
    · rcases List.mem_append.mp h with h | h
      · exact readStreams_record_times src config clock catalog state 0 s d t h
      · simp at h

theorem C10_emitted_at_truncated_to_seconds_witness : (1000 : Nat) % 1000 = 0 :=
  C10_emitted_at_truncated_to_seconds exSource "cfg" exCatalog [] exClock "s1" 2 1000
    (by decide)

/-! ### Fault propagation lemmas -/

theorem readStreams_fault_last (src : SourceModel) (config : Config) (clock : Nat → Nat) :
    ∀ (catalog : List ConfiguredStream) (agg : AggState) (tick : Nat) (e : String),
      (readStreams src config clock catalog agg tick).fault = some e →
      (readStreams src config clock catalog agg tick).msgs.getLast? =
        some (excLogMsg src.name e) := by
  intro catalog
  induction catalog with
  | nil => intro agg tick e h; simp [readStreams] at h
  | cons cs rest ih =>
    intro agg tick e h
    simp only [readStreams] at h ⊢
    set res := readStreamCore src config cs agg clock tick with hres
    cases hf : res.fault with
    | some e0 =>
      rw [hf] at h
      dsimp only at h ⊢
      injection h with h1
      subst h1
      exact getLast?_append_some res.msgs [excLogMsg src.name e0] _ rfl
    | none =>
      rw [hf] at h
      dsimp only at h ⊢
      exact getLast?_append_some res.msgs _ _ (ih res.agg res.tick e h)

/-- C4: when an extraction fault aborts a run, `read` re-raises the fault and
the very last message of the output is the ERROR log of the fault with its
traceback — no further RECORD or STATE message follows for the faulting stream
or any subsequent stream. -/
theorem C4_extraction_fault_logged_and_reraised (src : SourceModel) (config : Config)
    (catalog : List ConfiguredStream) (state : AggState) (clock : Nat → Nat) (e : String) :
    (read src config catalog state clock).2 = some e →
    (read src config catalog state clock).1.getLast? = some (excLogMsg src.name e) ∧
    excLogMsg src.name e =
      Msg.log "ERROR" ("Encountered an exception while reading stream " ++ src.name
        ++ "\n" ++ formatExc e) := by
  intro h
  refine ⟨?_, rfl⟩
  unfold read at h ⊢
  dsimp only at h ⊢
  cases hf : (readStreams src config clock catalog state 0).fault with
  | none =>
    rw [hf] at h
    dsimp only at h
    exact absurd h (by simp)
  | some e0 =>
    rw [hf] at h
    dsimp only at h
    injection h with h1
    subst h1
    exact getLast?_append_some [Msg.log "INFO" ("Starting syncing " ++ src.name)] _ _
      (readStreams_fault_last src config clock catalog state 0 e0 hf)

theorem C4_extraction_fault_logged_and_reraised_witness :
    (read exSource "cfg" [⟨⟨"faulty"⟩, SyncMode.incremental⟩] [] exClock).1.getLast? =
      some (excLogMsg exSource.name "boom") ∧
    excLogMsg exSource.name "boom" =
      Msg.log "ERROR" ("Encountered an exception while reading stream " ++ exSource.name
        ++ "\n" ++ formatExc "boom") :=
  C4_extraction_fault_logged_and_reraised exSource "cfg" [⟨⟨"faulty"⟩, SyncMode.incremental⟩]
    [] exClock "boom" (by decide)

/-! ### Missing-stream lemmas -/

theorem readStreamCore_missing (src : SourceModel) (config : Config) (cs : ConfiguredStream)
    (agg : AggState) (clock : Nat → Nat) (tick : Nat)
    (hl : lookupKey (src.streams config) cs.stream.name = none) :
    readStreamCore src config cs agg clock tick =
      ⟨[], agg, tick, some (keyErrorMsg cs.stream.name)⟩ := by
  unfold readStreamCore
  dsimp only
  rw [hl]

theorem readStreams_append (src : SourceModel) (config : Config) (clock : Nat → Nat) :
    ∀ (xs ys : List ConfiguredStream) (agg : AggState) (tick : Nat),
      (readStreams src config clock xs agg tick).fault = none →
      readStreams src config clock (xs ++ ys) agg tick =
        ⟨(readStreams src config clock xs agg tick).msgs
            ++ (readStreams src config clock ys (readStreams src config clock xs agg tick).agg
                (readStreams src config clock xs agg tick).tick).msgs,
          (readStreams src config clock ys (readStreams src config clock xs agg tick).agg
              (readStreams src config clock xs agg tick).tick).agg,
          (readStreams src config clock ys (readStreams src config clock xs agg tick).agg
              (readStreams src config clock xs agg tick).tick).tick,
          (readStreams src config clock ys (readStreams src config clock xs agg tick).agg
              (readStreams src config clock xs agg tick).tick).fault⟩ := by
  intro xs
  induction xs with
  | nil =>
    intro ys agg tick h
    simp [readStreams]
  | cons cs xs ih =>
    intro ys agg tick h
    simp only [readStreams, List.cons_append] at h ⊢
    set res := readStreamCore src config cs agg clock tick with hres
    cases hf : res.fault with
    | some e =>
      rw [hf] at h
      dsimp only at h
      exact absurd h (by simp)
    | none =>
      rw [hf] at h
      dsimp only at h
      simp only [List.append_eq]
      rw [ih ys res.agg res.tick h]
      dsimp only
      rw [List.append_assoc]

/-- C5: a configured stream whose name is absent from `streams(config)` makes
`_read_stream` raise the KeyError before pulling a single record (its run
contributes no messages at all), and `read` aborts there: the output is the
start log, the completed earlier streams' messages and the exception log, and
the KeyError is re-raised. -/
theorem C5_unresolvable_stream_aborts_before_extraction :
    (∀ (src : SourceModel) (config : Config) (cs : ConfiguredStream) (agg : AggState)
        (clock : Nat → Nat) (tick : Nat),
      lookupKey (src.streams config) cs.stream.name = none →
      readStreamCore src config cs agg clock tick =
        ⟨[], agg, tick, some (keyErrorMsg cs.stream.name)⟩) ∧
    (∀ (src : SourceModel) (config : Config) (pre : List ConfiguredStream)
        (cs : ConfiguredStream) (post : List ConfiguredStream) (state : AggState)
        (clock : Nat → Nat),
      (readStreams src config clock pre state 0).fault = none →
      lookupKey (src.streams config) cs.stream.name = none →
      read src config (pre ++ cs :: post) state clock =
        (Msg.log "INFO" ("Starting syncing " ++ src.name)
            :: ((readStreams src config clock pre state 0).msgs
              ++ [excLogMsg src.name (keyErrorMsg cs.stream.name)]),
         some (keyErrorMsg cs.stream.name))) := by
  constructor
  · intro src config cs agg clock tick hl
    exact readStreamCore_missing src config cs agg clock tick hl
  · intro src config pre cs post state clock hpre hl
    unfold read
    dsimp only
    rw [readStreams_append src config clock pre (cs :: post) state 0 hpre]
    simp only [readStreams]
    rw [readStreamCore_missing src config cs _ clock _ hl]
    dsimp only
    rw [List.nil_append]

theorem C5_unresolvable_stream_aborts_before_extraction_witness :
    read exSource "cfg" ([] ++ ⟨⟨"missing"⟩, SyncMode.incremental⟩ :: []) [] exClock =
      (Msg.log "INFO" ("Starting syncing " ++ exSource.name)
          :: ((readStreams exSource "cfg" exClock [] [] 0).msgs
            ++ [excLogMsg exSource.name (keyErrorMsg "missing")]),
       some (keyErrorMsg "missing")) :=
  C5_unresolvable_stream_aborts_before_extraction.2 exSource "cfg" []
    ⟨⟨"missing"⟩, SyncMode.incremental⟩ [] [] exClock rfl rfl

/-! ### Non-incremental extraction lemmas -/

theorem readLoop_nonincr (inst : StreamImpl) (n : String) (clock : Nat → Nat) :
    ∀ (rs : List Record) (c : Nat) (st : StreamState) (agg : AggState) (tick : Nat),
      readLoop inst n false clock rs c st agg tick =
        ⟨recordMsgs n clock rs tick, st, agg, tick + rs.length, none⟩ := by
  intro rs
  induction rs with
  | nil => intro c st agg tick; simp [readLoop, recordMsgs]
  | cons r rs ih =>
    intro c st agg tick
    simp only [readLoop]
    rw [if_neg (by simp : ¬ (false : Bool) = true)]
    rw [ih (c + 1) st agg (tick + 1)]
    simp only [recordMsgs, List.length_cons]
    congr 1
    omega

theorem recordDatas_recordMsgs (n : String) (clock : Nat → Nat) :
    ∀ (rs : List Record) (tick : Nat), recordDatas (recordMsgs n clock rs tick) = rs := by
  intro rs
  induction rs with
  | nil => intro tick; rfl
  | cons r rs ih =>
    intro tick
    simp only [recordMsgs, recordDatas, List.filterMap_cons]
    exact congrArg (r :: ·) (ih (tick + 1))

theorem stateDatas_recordMsgs (n : String) (clock : Nat → Nat) :
    ∀ (rs : List Record) (tick : Nat), stateDatas (recordMsgs n clock rs tick) = [] := by
  intro rs
  induction rs with
  | nil => intro tick; rfl
  | cons r rs ih =>
    intro tick
    simp only [recordMsgs, stateDatas_cons_record]
    exact ih (tick + 1)

/-- C3: a configured stream requesting incremental sync against a stream
implementation that is not incremental-capable falls back to a full extraction:
every pulled record is still emitted, no STATE message is emitted for the
stream, and the aggregate state is handed to the remaining streams unchanged. -/
theorem C3_incremental_request_falls_back_to_full (src : SourceModel) (config : Config)
    (cs : ConfiguredStream) (agg : AggState) (clock : Nat → Nat) (tick : Nat)
    (inst : StreamImpl)
    (h1 : lookupKey (src.streams config) cs.stream.name = some inst)
    (hmode : cs.sync_mode = SyncMode.incremental)
    (hni : inst.isIncremental = false) :
    readStreamCore src config cs agg clock tick =
      ⟨Msg.log "INFO" ("Syncing " ++ cs.stream.name ++ " stream")
          :: recordMsgs cs.stream.name clock (inst.pullRecords []).records tick,
        agg, tick + (inst.pullRecords []).records.length, (inst.pullRecords []).fault⟩ ∧
    stateDatas (readStreamCore src config cs agg clock tick).msgs = [] ∧
    recordDatas (readStreamCore src config cs agg clock tick).msgs =
      (inst.pullRecords []).records ∧
    (readStreamCore src config cs agg clock tick).agg = agg ∧
    (∀ (rest : List ConfiguredStream),
      (inst.pullRecords []).fault = none →
      readStreams src config clock (cs :: rest) agg tick =
        ⟨(readStreamCore src config cs agg clock tick).msgs
            ++ (readStreams src config clock rest agg
                  (tick + (inst.pullRecords []).records.length)).msgs,
          (readStreams src config clock rest agg
              (tick + (inst.pullRecords []).records.length)).agg,
          (readStreams src config clock rest agg
              (tick + (inst.pullRecords []).records.length)).tick,
          (readStreams src config clock rest agg
              (tick + (inst.pullRecords []).records.length)).fault⟩) := by
  have hui : (decide (cs.sync_mode = SyncMode.incremental) && inst.isIncremental) = false := by
    rw [hni]; simp
  have hcore : readStreamCore src config cs agg clock tick =
      ⟨Msg.log "INFO" ("Syncing " ++ cs.stream.name ++ " stream")
          :: recordMsgs cs.stream.name clock (inst.pullRecords []).records tick,
        agg, tick + (inst.pullRecords []).records.length, (inst.pullRecords []).fault⟩ := by
    unfold readStreamCore
    dsimp only
    rw [h1]
    dsimp only
    rw [hui]
    simp only [seededState, preLoopLogs, Bool.false_eq_true, if_false]
    rw [readLoop_nonincr inst cs.stream.name clock (inst.pullRecords []).records 0 [] agg tick]
    dsimp only
    cases hpf : (inst.pullRecords []).fault with
    | some e => rfl
    | none =>
      dsimp only
      rw [if_neg (by simp : ¬ (false && !List.isEmpty ([] : StreamState)) = true)]
      rfl
  refine ⟨hcore, ?_, ?_, ?_, ?_⟩
  · rw [hcore]
    simp only [stateDatas_cons_log]
    exact stateDatas_recordMsgs cs.stream.name clock _ tick
  · rw [hcore]
    show recordDatas (Msg.log "INFO" _ :: recordMsgs cs.stream.name clock _ tick) = _
    simp only [recordDatas, List.filterMap_cons]
    exact recordDatas_recordMsgs cs.stream.name clock _ tick
  · rw [hcore]
  · intro rest hpf
    simp only [readStreams]
    rw [hcore]
    dsimp only
    rw [hpf]

theorem C3_incremental_request_falls_back_to_full_witness :
    (readStreamCore exSource "cfg" ⟨⟨"plain"⟩, SyncMode.incremental⟩ [("old", [("k", "v")])]
        exClock 0).agg = [("old", [("k", "v")])] :=
  (C3_incremental_request_falls_back_to_full exSource "cfg" ⟨⟨"plain"⟩, SyncMode.incremental⟩
      [("old", [("k", "v")])] exClock 0 exPlainStream rfl rfl rfl).2.2.2.1

/-! ### Checkpoint-policy lemmas -/

theorem readLoop_fault_none (inst : StreamImpl) (n : String) (clock : Nat → Nat)
    (hft : FoldTotal inst) :
    ∀ (rs : List Record) (c : Nat) (st : StreamState) (agg : AggState) (tick : Nat),
      (readLoop inst n true clock rs c st agg tick).fault = none := by
  intro rs
  induction rs with
  | nil => intro c st agg tick; rfl
  | cons r rs ih =>
    intro c st agg tick
    simp only [readLoop]
    rw [if_pos trivial]
    obtain ⟨st1, hok⟩ := hft st r
    rw [hok]
    dsimp only
    by_cases hcp : (inst.continuouslySaveState && (c + 1) % 100 == 0) = true
    · rw [if_pos hcp]
      exact ih (c + 1) st1 (setKey agg n st1) (tick + 1)
    · rw [if_neg hcp]
      exact ih (c + 1) st1 agg (tick + 1)

theorem readLoop_state_count (inst : StreamImpl) (n : String) (clock : Nat → Nat)
    (hft : FoldTotal inst) :
    ∀ (rs : List Record) (c : Nat) (st : StreamState) (agg : AggState) (tick : Nat),
      (stateDatas (readLoop inst n true clock rs c st agg tick).msgs).length =
        if inst.continuouslySaveState then (c + rs.length) / 100 - c / 100 else 0 := by
  intro rs
  induction rs with
  | nil =>
    intro c st agg tick
    simp [readLoop, stateDatas_nil]
  | cons r rs ih =>
    intro c st agg tick
    simp only [readLoop]
    rw [if_pos trivial]
    obtain ⟨st1, hok⟩ := hft st r
    rw [hok]
    dsimp only
    cases hcss : inst.continuouslySaveState with
    | false =>
      rw [if_neg (by simp [hcss])]
      simp only [stateDatas_cons_record]
      rw [ih (c + 1) st1 agg (tick + 1), if_neg (by simp [hcss]), if_neg (by simp [hcss])]
    | true =>
      by_cases hmod : ((c + 1) % 100 == 0) = true
      · rw [if_pos (by simp [hcss, hmod])]
        simp only [stateDatas_cons_record, stateDatas_cons_state, List.length_cons]
        rw [ih (c + 1) st1 (setKey agg n st1) (tick + 1)]
        simp only [hcss, if_pos trivial, List.length_cons]
        have hm : (c + 1) % 100 = 0 := by simpa using hmod
        omega
      · rw [if_neg (by simp [hcss, hmod])]
        simp only [stateDatas_cons_record]
        rw [ih (c + 1) st1 agg (tick + 1)]
        simp only [hcss, if_pos trivial, List.length_cons]
        have hm : ¬ (c + 1) % 100 = 0 := by simpa using hmod
        omega

theorem readLoop_msgs_take_prefix (inst : StreamImpl) (n : String) (clock : Nat → Nat)
    (hft : FoldTotal inst) :
    ∀ (xs ys : List Record) (c : Nat) (st : StreamState) (agg : AggState) (tick : Nat),
      ∃ suffix, (readLoop inst n true clock (xs ++ ys) c st agg tick).msgs =
        (readLoop inst n true clock xs c st agg tick).msgs ++ suffix := by
  intro xs
  induction xs with
  | nil =>
    intro ys c st agg tick
    exact ⟨(readLoop inst n true clock ys c st agg tick).msgs, rfl⟩
  | cons r xs ih =>
    intro ys c st agg tick
    simp only [readLoop, List.cons_append]
    rw [if_pos trivial]
    obtain ⟨st1, hok⟩ := hft st r
    rw [hok]
    dsimp only
    by_cases hcp : (inst.continuouslySaveState && (c + 1) % 100 == 0) = true
    · simp only [if_pos hcp]
      obtain ⟨suf, hsuf⟩ := ih ys (c + 1) st1 (setKey agg n st1) (tick + 1)
      refine ⟨suf, ?_⟩
      dsimp only
      simp only [List.append_eq]
      rw [hsuf]
      simp [List.cons_append]
    · simp only [if_neg hcp]
      obtain ⟨suf, hsuf⟩ := ih ys (c + 1) st1 agg (tick + 1)
      refine ⟨suf, ?_⟩
      dsimp only
      simp only [List.append_eq]
      rw [hsuf]
      simp [List.cons_append]

/-- C2: the checkpoint policy of `_read_stream`: during an incremental pass (all
state folds succeeding), after processing the first N records the loop output
holds exactly N / 100 intermediate STATE messages when `continuously_save_state`
is set and none otherwise — i.e. one checkpoint exactly at every 100th record —
and when the stream completes with a non-empty final cursor state the terminal
STATE message is the last message of the stream's output. -/
theorem C2_checkpoint_every_100_records (inst : StreamImpl) (clock : Nat → Nat)
    (hft : FoldTotal inst) :
    (∀ (stream_name : String) (rs : List Record) (st : StreamState) (agg : AggState)
        (tick N : Nat), N ≤ rs.length →
      ((stateDatas (readLoop inst stream_name true clock (rs.take N) 0 st agg tick).msgs).length
          = if inst.continuouslySaveState then N / 100 else 0) ∧
      (∃ suffix, (readLoop inst stream_name true clock rs 0 st agg tick).msgs =
          (readLoop inst stream_name true clock (rs.take N) 0 st agg tick).msgs ++ suffix)) ∧
    (∀ (src : SourceModel) (config : Config) (cs : ConfiguredStream) (agg : AggState)
        (tick : Nat),
      lookupKey (src.streams config) cs.stream.name = some inst →
      cs.sync_mode = SyncMode.incremental →
      inst.isIncremental = true →
      (inst.pullRecords (seededState true agg cs.stream.name)).fault = none →
      (readLoop inst cs.stream.name true clock
          (inst.pullRecords (seededState true agg cs.stream.name)).records 0
          (seededState true agg cs.stream.name) agg tick).stream_state.isEmpty = false →
      (readStreamCore src config cs agg clock tick).msgs.getLast?
        = some (Msg.state (readStreamCore src config cs agg clock tick).agg)) := by
  constructor
  · intro stream_name rs st agg tick N hN
    constructor
    · rw [readLoop_state_count inst stream_name clock hft (rs.take N) 0 st agg tick]
      rw [List.length_take]
      rw [Nat.min_eq_left hN]
      simp
    · have h := readLoop_msgs_take_prefix inst stream_name clock hft (rs.take N) (rs.drop N)
        0 st agg tick
      rwa [List.take_append_drop N rs] at h
  · intro src config cs agg tick h1 hmode hinc hpf hne
    have hui : (decide (cs.sync_mode = SyncMode.incremental) && inst.isIncremental) = true := by
      rw [hmode, hinc]; simp
    unfold readStreamCore
    dsimp only
    rw [h1]
    dsimp only
    rw [hui]
    rw [readLoop_fault_none inst cs.stream.name clock hft]
    dsimp only
    rw [hpf]
    dsimp only
    rw [if_pos (by simp [hne] : (true && !List.isEmpty (readLoop inst cs.stream.name true clock
        (inst.pullRecords (seededState true agg cs.stream.name)).records 0
        (seededState true agg cs.stream.name) agg tick).stream_state) = true)]
    dsimp only
    exact List.getLast?_concat _

theorem C2_checkpoint_every_100_records_witness :
    ((stateDatas (readLoop exIncStream "s1" true exClock ([1, 2, 3, 4, 5].take 5) 0 [] [] 0).msgs).length
        = if exIncStream.continuouslySaveState then 5 / 100 else 0) ∧
    (readStreamCore exSource "cfg" ⟨⟨"s1"⟩, SyncMode.incremental⟩ [] exClock 0).msgs.getLast?
      = some (Msg.state (readStreamCore exSource "cfg" ⟨⟨"s1"⟩, SyncMode.incremental⟩ [] exClock 0).agg) :=
  ⟨((C2_checkpoint_every_100_records exIncStream exClock (fun _ _ => ⟨_, rfl⟩)).1
      "s1" [1, 2, 3, 4, 5] [] [] 0 5 (by decide)).1,
   (C2_checkpoint_every_100_records exIncStream exClock (fun _ _ => ⟨_, rfl⟩)).2
      exSource "cfg" ⟨⟨"s1"⟩, SyncMode.incremental⟩ [] 0 rfl rfl rfl rfl (by decide)⟩

/-- C6: for every config, `check` returns (without raising) FAILED with the
stringified error detail when `check_connection` reports a failure, and
SUCCEEDED with no message when it reports success. -/
theorem C6_check_maps_connection_result (src : SourceModel) (config : Config) (d : PyObj) :
    (src.check_connection config = (false, d) →
      check src config = { status := Status.failed, message := some (pyStr d) }) ∧
    (src.check_connection config = (true, d) →
      check src config = { status := Status.succeeded, message := none }) := by
  constructor <;> intro h <;> simp [check, h]

theorem C6_check_maps_connection_result_witness :
    check exBadSource "cfg" = { status := Status.failed, message := some "bad password" } ∧
    check exSource "cfg" = { status := Status.succeeded, message := none } :=
  ⟨(C6_check_maps_connection_result exBadSource "cfg" ⟨"bad password"⟩).1 rfl,
   (C6_check_maps_connection_result exSource "cfg" ⟨"ok"⟩).2 rfl⟩

/-- C7: `discover` builds, per stream, exactly the Stream Descriptor the spec
describes: name and schema, full_refresh plus incremental iff
incremental-capable, and cursor metadata only for incremental-capable streams,
with a single cursor field name normalized to a one-element path. -/
theorem C7_discover_builds_spec_descriptors (src : SourceModel) (config : Config) :
    discover src config = (src.streams config).map specStreamDescriptor := by
  simp only [discover]
  congr 1
  funext p
  cases hinc : p.2.isIncremental <;> simp [specStreamDescriptor, hinc]

/-- C8: the formatter masks every literal occurrence of each active secret in
the rendered message and wraps the result as a LOG message; on active secrets
["sk_live_abc"] and message "token=sk_live_abc ok" the LOG text is
"token=**** ok", and the secret no longer occurs in it. -/
theorem C8_formatter_masks_secrets :
    (∀ (secrets : List String) (levelno : Nat) (message : String),
        AirbyteLogFormatter.format secrets levelno message =
          Msg.log (level_mapping levelno) (maskSecrets secrets message)) ∧
    AirbyteLogFormatter.format ["sk_live_abc"] 20 "token=sk_live_abc ok" =
      Msg.log "INFO" "token=**** ok" ∧
    containsSub "sk_live_abc".data "token=**** ok".data = false := by
  refine ⟨fun _ _ _ => rfl, ?_, ?_⟩ <;> decide

/-- C9: `log_by_prefix` takes the level from the first whitespace-delimited
token when it is a known level name (stripping it from the text), and otherwise
keeps the caller-supplied default level and the original text; in particular
"ERROR disk full" with default INFO logs at ERROR with text "disk full", and
"disk full" with default INFO logs at INFO with text "disk full". -/
theorem C9_log_by_first_word_dispatch :
    (∀ (message default_level w : String) (ws : List String),
        pySplit message = w :: ws → w ∈ valid_log_types →
        AirbyteLogger.logByFirstWord message default_level =
          Msg.log w (" ".intercalate ws)) ∧
    (∀ (message default_level w : String) (ws : List String),
        pySplit message = w :: ws → w ∉ valid_log_types →
        AirbyteLogger.logByFirstWord message default_level =
          Msg.log default_level message) ∧
    (∀ (message default_level : String),
        pySplit message = [] →
        AirbyteLogger.logByFirstWord message default_level =
          Msg.log default_level message) ∧
    AirbyteLogger.logByFirstWord "ERROR disk full" "INFO" = Msg.log "ERROR" "disk full" ∧
    AirbyteLogger.logByFirstWord "disk full" "INFO" = Msg.log "INFO" "disk full" ∧
    (∀ (msg default_level w : String) (ws : List String),
        pySplit msg = w :: ws → w ∈ valid_log_types →
        AirbyteNativeLogger.logByFirstWord msg default_level =
          (getLevelNumber w, " ".intercalate ws)) ∧
    (∀ (msg default_level w : String) (ws : List String),
        pySplit msg = w :: ws → w ∉ valid_log_types → default_level ∈ valid_log_types →
        AirbyteNativeLogger.logByFirstWord msg default_level = (getLevelNumber default_level, msg)) ∧
    AirbyteNativeLogger.logByFirstWord "ERROR disk full" "INFO" = (40, "disk full") ∧
    AirbyteNativeLogger.logByFirstWord "disk full" "INFO" = (20, "disk full") := by
  refine ⟨?_, ?_, ?_, by decide, by decide, ?_, ?_, by decide, by decide⟩
  · intro message dl w ws h hw
    simp [AirbyteLogger.logByFirstWord, h, hw]
  · intro message dl w ws h hw
    simp [AirbyteLogger.logByFirstWord, h, hw]
  · intro message dl h
    simp [AirbyteLogger.logByFirstWord, h]
  · intro msg dl w ws h hw
    simp [AirbyteNativeLogger.logByFirstWord, h, hw]
  · intro msg dl w ws h hw hdl
    simp [AirbyteNativeLogger.logByFirstWord, h, hw, hdl]

theorem C9_log_by_first_word_dispatch_witness :
    AirbyteLogger.logByFirstWord "WARN low disk" "INFO" = Msg.log "WARN" "low disk" ∧
    AirbyteLogger.logByFirstWord "hello world" "DEBUG" = Msg.log "DEBUG" "hello world" ∧
    AirbyteNativeLogger.logByFirstWord "hello world" "DEBUG" = (10, "hello world") :=
  ⟨C9_log_by_first_word_dispatch.1 "WARN low disk" "INFO" "WARN" ["low", "disk"]
      (by decide) (by decide),
   C9_log_by_first_word_dispatch.2.1 "hello world" "DEBUG" "hello" ["world"]
      (by decide) (by decide),
   C9_log_by_first_word_dispatch.2.2.2.2.2.2.1 "hello world" "DEBUG" "hello" ["world"]
      (by decide) (by decide) (by decide)⟩

end Airbyte
